import Mathlib

/-!
Verification development for the pdfesign signing core.

The embedded code is the byte-level signing pipeline `signPdf` and the
signature inspector `getExistingSignatures` from the repository's signing
module.  Byte buffers are modelled as `List Nat` (one entry per byte,
values < 256, matching Node's latin-1 "binary" view of a `Buffer`).

External collaborators (the `pdf-lib` serializer, the `node-forge`
digest/CMS library) are not part of the repository; the pipeline is
parametrized by the digest function `H` and the DER encoder `der`, and the
serialized buffer produced by `pdfDoc.save` is the pipeline's input.
-/

/-- Bytes of an ASCII string, as Node's latin-1 "binary" view. -/
def strBytes (s : String) : List Nat :=
  s.toList.map Char.toNat

/-- JavaScript regex `\s` on latin-1 code points (the subset below 0x100). -/
def isJsSpace (b : Nat) : Bool :=
  b == 0x20 || b == 0x09 || b == 0x0a || b == 0x0b || b == 0x0c || b == 0x0d || b == 0xa0

/-- Consume the literal `pat` from the front of `l`; return the rest on success. -/
def matchLit : List Nat → List Nat → Option (List Nat)
  | [], rest => some rest
  | _ :: _, [] => none
  | p :: ps, b :: bs => if p = b then matchLit ps bs else none

/-- Greedily consume leading JS whitespace, returning (count, rest). -/
def munchSpaces : List Nat → Nat × List Nat
  | [] => (0, [])
  | b :: bs =>
    if isJsSpace b then
      let r := munchSpaces bs
      (r.1 + 1, r.2)
    else (0, b :: bs)

/-- Attempt the placeholder regex of `signPdf` step 8,
`/\/ByteRange\s*\[\s*0\s+9999999999\s+9999999999\s+9999999999\s*\]/`,
at the head of `l`; on success return the remaining suffix.  Every
whitespace class is adjacent to literals disjoint from `\s`, so greedy
maximal munch coincides with the JS engine's backtracking semantics. -/
def matchPlaceholderAt (l : List Nat) : Option (List Nat) := do
  let r1 ← matchLit (strBytes "/ByteRange") l
  let m1 := munchSpaces r1
  let r2 ← matchLit (strBytes "[") m1.2
  let m2 := munchSpaces r2
  let r3 ← matchLit (strBytes "0") m2.2
  let m3 := munchSpaces r3
  guard (m3.1 ≠ 0)
  let r4 ← matchLit (strBytes "9999999999") m3.2
  let m4 := munchSpaces r4
  guard (m4.1 ≠ 0)
  let r5 ← matchLit (strBytes "9999999999") m4.2
  let m5 := munchSpaces r5
  guard (m5.1 ≠ 0)
  let r6 ← matchLit (strBytes "9999999999") m5.2
  let m6 := munchSpaces r6
  matchLit (strBytes "]") m6.2

/-- Index of the first suffix of `l` satisfying `p` (leftmost-match scan,
as a JS regex `exec` / `Buffer.indexOf` walks positions left to right). -/
def firstIdxSat (p : List Nat → Bool) : List Nat → Option Nat
  | [] => none
  | b :: bs => if p (b :: bs) then some 0 else (firstIdxSat p bs).map (· + 1)

/-- `placeholderPattern.exec(pdfBuffer.toString("binary"))`: position and
length of the leftmost placeholder match (`match.index`, `match[0].length`). -/
def findPlaceholder (buf : List Nat) : Option (Nat × Nat) :=
  (firstIdxSat (fun l => (matchPlaceholderAt l).isSome) buf).bind fun i =>
    (matchPlaceholderAt (buf.drop i)).map fun rest =>
      (i, buf.length - i - rest.length)

/-- Number of positions of `buf` at which the placeholder pattern matches
(the spec's "the sentinel pattern must match exactly once" counts these). -/
def countPlaceholderMatches (buf : List Nat) : Nat :=
  ((List.range buf.length).filter
    (fun i => (matchPlaceholderAt (buf.drop i)).isSome)).length

/-- The literal `pat` occurs in `buf` starting at index `i`. -/
def occursAtB (pat buf : List Nat) (i : Nat) : Bool :=
  (matchLit pat (buf.drop i)).isSome

/-- `Buffer.lastIndexOf(pat, bound)`: the largest start index `≤ bound` at
which `pat` occurs, if any. -/
def lastPatLe (pat buf : List Nat) : Nat → Option Nat
  | 0 => if occursAtB pat buf 0 then some 0 else none
  | n + 1 => if occursAtB pat buf (n + 1) then some (n + 1) else lastPatLe pat buf n

/-- `Buffer.indexOf(pat, start)`: the smallest start index `≥ start` at
which `pat` occurs, if any. -/
def patIdxFrom (pat buf : List Nat) (start : Nat) : Option Nat :=
  (firstIdxSat (fun l => (matchLit pat l).isSome) (buf.drop start)).map (· + start)

/-- The forward byte scan of `signPdf` step 9 (`for (i = start; ...) if
(pdfBuffer[i] === b)`) and `Buffer.indexOf(byte, start)`: smallest index
`≥ start` holding byte `t`. -/
def byteIdxFrom (buf : List Nat) (start : Nat) (t : Nat) : Option Nat :=
  (firstIdxSat (fun l => l.head? == some t) (buf.drop start)).map (· + start)

/-- `src.copy(buf, off)` on Node buffers: overwrite the bytes of `buf` from
offset `off` with `src`, truncating at the end of `buf`; never changes the
length. -/
def writeAt : List Nat → Nat → List Nat → List Nat
  | [], _, _ => []
  | b :: bs, 0, [] => b :: bs
  | _ :: bs, 0, s :: ss => s :: writeAt bs 0 ss
  | b :: bs, n + 1, src => b :: writeAt bs n src

/-- Lowercase ASCII hex digit, as `forge.util.bytesToHex` produces. -/
def hexDigit (n : Nat) : Nat :=
  if n < 10 then 48 + n else 87 + n

/-- `forge.util.bytesToHex`: two lowercase hex characters per byte. -/
def hexEncode (l : List Nat) : List Nat :=
  (l.map (fun b => [hexDigit (b / 16), hexDigit (b % 16)])).flatten

/-- `SignerCredentials` (signing module): private key, leaf certificate and
certificate chain.  Keys and certificates are opaque to the pipeline, so
they are modelled by identifiers. -/
structure SignerCredentials where
  privateKey : Nat
  certificate : Nat
  certificates : List Nat
deriving DecidableEq

/-- Observable shape of the `forge.pkcs7.createSignedData` object built by
`signPdf` step 12, parametrized by the digest function `H`.  The CMS
library computes the message-digest authenticated attribute as the digest
of the SignedData content (`p7.content`); `content` records the bytes
`signPdf` assigns to `p7.content`. -/
structure CMSModel where
  certificates : List Nat
  content : List Nat
  digestAlgorithm : String
  authAttrContentType : Bool
  authAttrMessageDigest : List Nat
  authAttrSigningTime : Bool
deriving DecidableEq

/-- `signPdf` step 12, lines building `p7`: empty content
(`p7.content = forge.util.createBuffer("")`), leaf certificate then the
chain certificates, one signer with SHA-256 and the three authenticated
attributes.  The separately computed digest over the byte ranges is never
supplied to the builder, so the library fills the message-digest attribute
with `H` of the (empty) content. -/
def buildCMS (H : List Nat → List Nat) (creds : SignerCredentials) : CMSModel :=
  let certs := [creds.certificate]
  let certs := if creds.certificates.length > 0 then certs ++ creds.certificates else certs
  { certificates := certs
    content := []
    digestAlgorithm := "sha256"
    authAttrContentType := true
    authAttrMessageDigest := H []
    authAttrSigningTime := true }

/-- Failure exits of the byte-level pipeline.  The first four correspond to
`throw new Error(...)` sites in `signPdf`; `hexOpenMissing` and
`hexCloseMissing` mark the executions in which the source's unchecked
`-1` sentinel indexes would arise (the source does not throw there but
continues with out-of-range indexes; such executions are outside the
modelled domain and outside every claim). -/
inductive SignError
  | placeholderMissing
  | contentsKeyMissing
  | hexOpenMissing
  | hexCloseMissing
  | byteRangeOverflow
  | signatureOverflow
deriving DecidableEq

/-- Offsets recovered from the serialized buffer by `signPdf` steps 8–9. -/
structure RangeInfo where
  byteRangePos : Nat
  byteRangeLength : Nat
  contentsKeyPos : Nat
  contentsStart : Nat
  contentsEnd : Nat
deriving DecidableEq

/-- The `/Contents` token searched for in `signPdf` step 9. -/
def contentsPat : List Nat := strBytes "/Contents"

/-- `signPdf` step 9, lines 252–254: `lastIndexOf("/Contents", brPos)`
falling back to `indexOf("/Contents", brPos)`. -/
def contentsKeyAt (buf : List Nat) (brPos : Nat) : Option Nat :=
  match lastPatLe contentsPat buf brPos with
  | some k => some k
  | none => patIdxFrom contentsPat buf brPos

/-- `signPdf` steps 8–9: locate the ByteRange placeholder (first regex
match), then the `/Contents` key (`lastIndexOf` from the match position,
falling back to `indexOf`), then the opening `<` (forward byte scan from
key + 9) and the closing `>` (`indexOf` from the opening delimiter). -/
def locateRanges (buf : List Nat) : Except SignError RangeInfo :=
  match findPlaceholder buf with
  | none => .error .placeholderMissing
  | some (brPos, brLen) =>
    match contentsKeyAt buf brPos with
    | none => .error .contentsKeyMissing
    | some k =>
      match byteIdxFrom buf (k + 9) 0x3c with
      | none => .error .hexOpenMissing
      | some cs =>
        match byteIdxFrom buf cs 0x3e with
        | none => .error .hexCloseMissing
        | some ce =>
          .ok { byteRangePos := brPos, byteRangeLength := brLen,
                contentsKeyPos := k, contentsStart := cs, contentsEnd := ce }

/-- `signPdf` steps 10–11: the replacement text
`` `/ByteRange [${byteRange.join(" ")}]` `` for the quadruple
`[0, part1Length, part2Start, part2Length]`. -/
def byteRangeText (buf : List Nat) (info : RangeInfo) : List Nat :=
  strBytes ("/ByteRange [0 " ++ Nat.repr info.contentsStart ++ " "
    ++ Nat.repr (info.contentsEnd + 1) ++ " "
    ++ Nat.repr (buf.length - (info.contentsEnd + 1)) ++ "]")

/-- `signPdf` step 11: the replacement text space-padded to the exact byte
width of the placeholder match. -/
def paddedBR (buf : List Nat) (info : RangeInfo) : List Nat :=
  byteRangeText buf info
    ++ List.replicate (info.byteRangeLength - (byteRangeText buf info).length) 0x20

/-- `availableSpace = contentsEnd - contentsStart - 2` (`signPdf` step 12);
kept in `Int` because the source computes it in JS number arithmetic. -/
def availSpace (info : RangeInfo) : Int :=
  (info.contentsEnd : Int) - (info.contentsStart : Int) - 2

/-- `signPdf` steps 12–13: the hex-encoded DER signature zero-padded to
`availableSpace`. -/
def paddedHex (H : List Nat → List Nat) (der : CMSModel → List Nat)
    (creds : SignerCredentials) (info : RangeInfo) : List Nat :=
  let hs := hexEncode (der (buildCMS H creds))
  hs ++ List.replicate (availSpace info - (hs.length : Int)).toNat 0x30

/-- Successful result of the pipeline: the patched buffer plus the values
`signPdf` computes along the way (the byte-range quadruple of step 10, the
dead digest of the two spans from lines 286–288, the CMS object, and the
number of hex characters written in step 13). -/
structure SignOutput where
  bytes : List Nat
  info : RangeInfo
  byteRange : List Nat
  spanDigest : List Nat
  cms : CMSModel
  hexLen : Nat
deriving DecidableEq

/-- `signPdf` steps 8–13, starting from the serialized buffer produced by
the single `pdfDoc.save` pass.  `H` is the external SHA-256, `der` the
external DER encoding of the CMS object.  Note the digest over the two
byte spans (`spanDigest`) is computed and then never used by the source:
the CMS object's message-digest attribute is `H` of the empty content. -/
def signFlow (H : List Nat → List Nat) (der : CMSModel → List Nat)
    (creds : SignerCredentials) (buf : List Nat) : Except SignError SignOutput :=
  match locateRanges buf with
  | .error e => .error e
  | .ok info =>
    if (byteRangeText buf info).length > info.byteRangeLength then
      .error .byteRangeOverflow
    else if ((hexEncode (der (buildCMS H creds))).length : Int) > availSpace info then
      .error .signatureOverflow
    else
      .ok { bytes := writeAt (writeAt buf info.byteRangePos (paddedBR buf info))
              (info.contentsStart + 1) (paddedHex H der creds info)
            info := info
            byteRange := [0, info.contentsStart, info.contentsEnd + 1,
              buf.length - (info.contentsEnd + 1)]
            spanDigest := H ((writeAt buf info.byteRangePos (paddedBR buf info)).take
                info.contentsStart
              ++ (writeAt buf info.byteRangePos (paddedBR buf info)).drop
                (info.contentsEnd + 1))
            cms := buildCMS H creds
            hexLen := (paddedHex H der creds info).length }

/-- `signPdf` returned a buffer (did not throw). -/
def flowSucceeds (H : List Nat → List Nat) (der : CMSModel → List Nat)
    (creds : SignerCredentials) (buf : List Nat) : Bool :=
  match signFlow H der creds buf with
  | .ok _ => true
  | .error _ => false

/-- PDF object values as `pdf-lib`'s `context.obj` produces them for the
dictionaries `signPdf` builds: plain JS strings become names, `PDFString`
and `PDFHexString` wrappers become literal strings, numbers become
numbers, registered objects become indirect references, nested objects
stay direct. -/
inductive PDFObj
  | name (s : String)
  | str (s : String)
  | hex (s : String)
  | num (n : Int)
  | ref (r : Nat)
  | arr (xs : List PDFObj)
  | dict (entries : List (String × PDFObj))

/-- A PDF dictionary as an insertion-ordered key/value list (the shape
`pdf-lib`'s `PDFDict` Map presents). -/
def Dict := List (String × PDFObj)

/-- `PDFDict.set` / JS `Map.set`: replace the value of an existing key in
place, else append the new entry. -/
def dictSet : Dict → String → PDFObj → Dict
  | [], k, v => [(k, v)]
  | (k0, v0) :: rest, k, v =>
    if k0 = k then (k, v) :: rest else (k0, v0) :: dictSet rest k v

/-- `PDFDict.get` by key name. -/
def dictGet (d : Dict) (k : String) : Option PDFObj :=
  match d with
  | [] => none
  | (k0, v0) :: rest => if k0 = k then some v0 else dictGet rest k

/-- Entries of the DocMDP transform-parameters dictionary (`signPdf`
locking step 1): `P = 1` means no changes allowed. -/
def transformParamsEntries : Dict :=
  [("Type", .name "TransformParams"), ("P", .num 1), ("V", .name "1.2")]

/-- Entries of the signature-reference dictionary (`signPdf` locking
step 2). -/
def referenceDictEntries : Dict :=
  [("Type", .name "SigRef"), ("TransformMethod", .name "DocMDP"),
   ("DigestMethod", .name "MD5"), ("TransformParams", .dict transformParamsEntries)]

/-- The signature dictionary as first built (`signPdf` step 1, lines
123–136), before any locking entries; `dateStr` stands for the external
`PDFString.fromDate(new Date())`. -/
def sigDictBase (dateStr : String) : Dict :=
  [("Type", .name "Sig"),
   ("Filter", .name "Adobe.PPKLite"),
   ("SubFilter", .name "adbe.pkcs7.detached"),
   ("Contents", .hex (String.mk (List.replicate 32768 '0'))),
   ("Reason", .str "Digitally Signed via PDFesign"),
   ("M", .str dateStr),
   ("ByteRange", .arr [.num 0, .num 9999999999, .num 9999999999, .num 9999999999])]

/-- Result of building the signature dictionary and updating the catalog. -/
structure LockResult where
  signatureDict : Dict
  catalog : Dict

/-- `signPdf` lines 123–172: build the signature dictionary, and when
`lockDocument` is set, attach the `/Reference` array (SigRef with
TransformMethod DocMDP) to it and set the catalog's `/Perms` entry to a
dictionary whose `DocMDP` key is the registered signature reference
`sigRef`.  When `lockDocument` is false neither half runs and the catalog
is returned as given. -/
def buildSignatureConstructs (lockDocument : Bool) (dateStr : String)
    (sigRef : Nat) (catalog : Dict) : LockResult :=
  let sigDict := sigDictBase dateStr
  let sigDict :=
    if lockDocument then
      dictSet sigDict "Reference" (.arr [.dict referenceDictEntries])
    else sigDict
  let catalog1 :=
    if lockDocument then
      dictSet catalog "Perms" (.dict [("DocMDP", .ref sigRef)])
    else catalog
  { signatureDict := sigDict, catalog := catalog1 }

/-- The catalog's `/Perms` dictionary's `DocMDP` entry, if present. -/
def permsDocMDP (catalog : Dict) : Option PDFObj :=
  match dictGet catalog "Perms" with
  | some (.dict entries) => dictGet entries "DocMDP"
  | _ => none

/-- The TypeScript default `lockDocument: boolean = true` (`signPdf`
signature, line 112): an omitted argument resolves to `true`. -/
def resolveLockArg : Option Bool → Bool
  | none => true
  | some b => b

/-- A subject attribute of a certificate decoded by the CMS library
(`attr.name` / `attr.shortName` / `attr.value`). -/
structure AttrModel where
  attrName : Option String
  shortName : Option String
  value : String
deriving DecidableEq

/-- A certificate embedded in a decoded PKCS#7 message. -/
structure CertModel where
  attrs : List AttrModel
deriving DecidableEq

/-- Outcome of the forge decode chain
(`asn1.fromDer` then `pkcs7.messageFromAsn1`) on the field's hex contents:
either some step throws, or it yields a message whose `certificates`
property may be absent. -/
inductive DecodeOutcome
  | throws
  | ok (certificates : Option (List CertModel))
deriving DecidableEq

/-- The signature field's `/V` value as `getExistingSignatures` observes
it: absent (or not a dictionary), a dictionary without a hex-string
`/Contents`, or a hex-string contents with the given decode outcome. -/
inductive VModel
  | missing
  | dictNoHexContents
  | dictHex (decode : DecodeOutcome)
deriving DecidableEq

/-- A widget annotation of a field: its rectangle (as
`widget.getRectangle()` reports x, y, width, height) and its `/P` page
reference, modelled by the page object's reference identity. -/
structure WidgetModel where
  rect : List Int
  pageRef : Option Nat
deriving DecidableEq

/-- An interactive form field as the inspector observes it. -/
structure FieldModel where
  isSig : Bool
  fieldName : String
  widgets : List WidgetModel
  v : VModel
deriving DecidableEq

/-- The loaded document as the inspector observes it: the form's fields in
encounter order and the page list's reference identities. -/
structure PdfModel where
  fields : List FieldModel
  pageRefs : List Nat
deriving DecidableEq

/-- `ExistingSignature` (signing module): the record the inspector returns
per signature field.  `pageIndex` is an `Int` because the source stores
the raw result of `Array.prototype.findIndex`. -/
structure ExistingSignature where
  fieldName : String
  signerName : String
  pageIndex : Int
  rect : List Int
deriving DecidableEq

/-- The common-name search predicate of `getExistingSignatures`
(`attr.name === "commonName" || attr.shortName === "CN"`). -/
def cnPred (a : AttrModel) : Bool :=
  a.attrName == some "commonName" || a.shortName == some "CN"

/-- `getExistingSignatures` lines 63–91: the signer label.  The default is
"Unknown Signer"; it is replaced by the first certificate's common name
when the whole decode chain succeeds and the attribute exists, and by
"Signed (Unverified)" only when the decode chain throws (the catch
branch).  Absent value, certificates, or common name do not throw and
leave the default. -/
def signerNameOf : VModel → String
  | .missing => "Unknown Signer"
  | .dictNoHexContents => "Unknown Signer"
  | .dictHex .throws => "Signed (Unverified)"
  | .dictHex (.ok certificates) =>
    match certificates.bind List.head? with
    | none => "Unknown Signer"
    | some c =>
      match c.attrs.find? cnPred with
      | none => "Unknown Signer"
      | some a => a.value

/-- Index of the first element equal to `r`, if any. -/
def jsFindIndexAux (r : Nat) : List Nat → Option Nat
  | [] => none
  | p :: ps => if p = r then some 0 else (jsFindIndexAux r ps).map (· + 1)

/-- `Array.prototype.findIndex` on the page list: index of the first page
whose reference is `r`, and `-1` when none matches. -/
def jsFindIndex (pages : List Nat) (r : Nat) : Int :=
  match jsFindIndexAux r pages with
  | some i => (i : Int)
  | none => -1

/-- `getExistingSignatures` lines 44–93 for one signature field: rectangle
and page index from the first widget (zero rectangle and page 0 when there
is no widget; page 0 when the widget has no `/P`; the raw `findIndex`
result when it has one), and the signer label from the `/V` value. -/
def summarizeField (pageRefs : List Nat) (f : FieldModel) : ExistingSignature :=
  let wp : List Int × Int :=
    match f.widgets with
    | [] => ([0, 0, 0, 0], 0)
    | w :: _ =>
      (w.rect,
        match w.pageRef with
        | none => 0
        | some r => jsFindIndex pageRefs r)
  { fieldName := f.fieldName, signerName := signerNameOf f.v,
    pageIndex := wp.2, rect := wp.1 }

/-- `getExistingSignatures` (lines 29–98): one record per signature-type
field (`FT = Sig`), in field-encounter order. -/
def getExistingSignaturesModel (m : PdfModel) : List ExistingSignature :=
  (m.fields.filter (·.isSig)).map (summarizeField m.pageRefs)

/-- Concrete digest function for evaluation: the length of the input as a
one-byte "digest" (collision-free on the two inputs each test compares). -/
def exH : List Nat → List Nat := fun l => [l.length]

/-- Concrete DER encoder producing an empty signature (hex length 0). -/
def exDer : CMSModel → List Nat := fun _ => []

/-- Concrete DER encoder producing a two-byte signature (hex length 4). -/
def exDer2 : CMSModel → List Nat := fun _ => [0xab, 0xcd]

/-- Concrete credentials. -/
def exCreds : SignerCredentials :=
  { privateKey := 1, certificate := 2, certificates := [3] }

/-- A minimal serialized buffer: a `/Contents` hex placeholder followed by
the ByteRange sentinel. -/
def exBuf : List Nat :=
  strBytes "q/Contents <0000>/ByteRange [0 9999999999 9999999999 9999999999]rr"

/-- A serialized buffer containing the ByteRange sentinel twice (as when
the input document already carried the sentinel bytes). -/
def exBuf2 : List Nat :=
  strBytes ("q/Contents <0000>/ByteRange [0 9999999999 9999999999 9999999999]"
    ++ "/ByteRange [0 9999999999 9999999999 9999999999]x")

/-- The offsets `signPdf` recovers on `exBuf`. -/
def wInfo : RangeInfo :=
  { byteRangePos := 17, byteRangeLength := 47, contentsKeyPos := 1,
    contentsStart := 11, contentsEnd := 16 }

/-- Placeholder output used only as the default of `Option.getD`. -/
def signOutputDefault : SignOutput :=
  { bytes := [], info := ⟨0, 0, 0, 0, 0⟩, byteRange := [], spanDigest := [],
    cms := { certificates := [], content := [], digestAlgorithm := "",
             authAttrContentType := false, authAttrMessageDigest := [],
             authAttrSigningTime := false },
    hexLen := 0 }

/-- The pipeline's output on `exBuf` with `exH`, `exDer`, `exCreds`. -/
def wOut : SignOutput :=
  (signFlow exH exDer exCreds exBuf).toOption.getD signOutputDefault


/-- A one-signature-field document whose field has no `/V` value. -/
def exPdfC3 : PdfModel :=
  { fields := [{ isSig := true, fieldName := "Sig1", widgets := [], v := .missing }],
    pageRefs := [] }

/-- A one-signature-field document whose first widget points at a page
reference (99) matching no page in the page list. -/
def exPdfC4 : PdfModel :=
  { fields := [{ isSig := true, fieldName := "Sig1",
                 widgets := [{ rect := [1, 2, 3, 4], pageRef := some 99 }],
                 v := .missing }],
    pageRefs := [5, 6] }

/-- A signature field whose first widget has an unresolvable page ref. -/
def exFieldA : FieldModel :=
  { isSig := true, fieldName := "SigA",
    widgets := [{ rect := [1, 2, 3, 4], pageRef := some 99 }], v := .missing }

/-- A signature field whose first widget resolves to the first page. -/
def exFieldB : FieldModel :=
  { isSig := true, fieldName := "SigB",
    widgets := [{ rect := [1, 2, 3, 4], pageRef := some 5 }], v := .missing }

/-- A document catalog that already carries a `/Perms/DocMDP` entry. -/
def exCatalogPerms : Dict :=
  [("Perms", PDFObj.dict [("DocMDP", PDFObj.ref 7)])]

/-- A document with no interactive form fields. -/
def emptyPdfModel : PdfModel := { fields := [], pageRefs := [] }

theorem writeAt_length : ∀ (buf : List Nat) (off : Nat) (src : List Nat),
    (writeAt buf off src).length = buf.length
  | [], _, _ => rfl
  | _ :: _, 0, [] => rfl
  | _ :: bs, 0, s :: ss => by
      simp only [writeAt, List.length_cons, writeAt_length bs 0 ss]
  | _ :: bs, n + 1, src => by
      simp only [writeAt, List.length_cons, writeAt_length bs n src]

theorem writeAt_getElem_outside : ∀ (buf : List Nat) (off : Nat) (src : List Nat) (i : Nat),
    i < off ∨ off + src.length ≤ i → (writeAt buf off src)[i]? = buf[i]?
  | [], _, _, _, _ => by simp [writeAt]
  | _ :: _, 0, [], _, _ => rfl
  | b :: bs, 0, s :: ss, i, h => by
      match i with
      | 0 =>
        exfalso
        rcases h with h | h
        · exact Nat.not_lt_zero 0 h
        · simp [List.length_cons] at h
      | i + 1 =>
        simp only [writeAt, List.getElem?_cons_succ]
        exact writeAt_getElem_outside bs 0 ss i (by
          rcases h with h | h
          · exact absurd h (Nat.not_lt_zero _)
          · right; simpa [List.length_cons, Nat.succ_le_succ_iff] using h)
  | b :: bs, n + 1, src, 0, _ => by simp [writeAt]
  | b :: bs, n + 1, src, i + 1, h => by
      simp only [writeAt, List.getElem?_cons_succ]
      exact writeAt_getElem_outside bs n src i (by omega)

theorem firstIdxSat_spec (p : List Nat → Bool) :
    ∀ (l : List Nat) (i : Nat), firstIdxSat p l = some i →
      p (l.drop i) = true ∧ ∀ j, j < i → p (l.drop j) = false
  | [], i, h => by simp [firstIdxSat] at h
  | b :: bs, i, h => by
      by_cases hp : p (b :: bs)
      · simp only [firstIdxSat, hp, if_pos, Option.some.injEq] at h
        subst h
        exact ⟨hp, fun j hj => absurd hj (Nat.not_lt_zero j)⟩
      · simp only [firstIdxSat, hp, if_neg, Bool.false_eq_true, not_false_iff,
          ite_false, Option.map_eq_some'] at h
        obtain ⟨i0, hi0, hi⟩ := h
        subst hi
        have ih := firstIdxSat_spec p bs i0 hi0
        refine ⟨by simpa using ih.1, fun j hj => ?_⟩
        match j with
        | 0 => simpa using hp
        | j + 1 => simpa using ih.2 j (by omega)

theorem firstIdxSat_eq_none (p : List Nat → Bool) :
    ∀ l : List Nat, (∀ j, j < l.length → p (l.drop j) = false) → firstIdxSat p l = none
  | [], _ => rfl
  | b :: bs, h => by
      have h0 : p (b :: bs) = false := by simpa using h 0 (by simp)
      simp only [firstIdxSat, h0, Bool.false_eq_true, not_false_iff, ite_false,
        Option.map_eq_none']
      exact firstIdxSat_eq_none p bs
        (fun j hj => by simpa using h (j + 1) (by simpa using Nat.succ_lt_succ hj))

theorem head?_drop_idx : ∀ (l : List Nat) (j : Nat), (l.drop j).head? = l[j]?
  | [], j => by simp
  | b :: bs, 0 => by simp
  | b :: bs, j + 1 => by simp [head?_drop_idx bs j]

theorem lastPatLe_spec (pat buf : List Nat) :
    ∀ (n k : Nat), lastPatLe pat buf n = some k →
      k ≤ n ∧ occursAtB pat buf k = true ∧
        ∀ j, k < j → j ≤ n → occursAtB pat buf j = false
  | 0, k, h => by
      by_cases h0 : occursAtB pat buf 0
      · simp only [lastPatLe, h0, if_pos, Option.some.injEq] at h
        subst h
        exact ⟨Nat.le_refl 0, h0, fun j hj hj0 => by omega⟩
      · simp [lastPatLe, h0] at h
  | n + 1, k, h => by
      by_cases hn : occursAtB pat buf (n + 1)
      · simp only [lastPatLe, hn, if_pos, Option.some.injEq] at h
        subst h
        exact ⟨Nat.le_refl _, hn, fun j hj hj1 => by omega⟩
      · simp only [lastPatLe, hn, Bool.false_eq_true, not_false_iff, ite_false] at h
        have ih := lastPatLe_spec pat buf n k h
        refine ⟨by omega, ih.2.1, fun j hj hj1 => ?_⟩
        rcases Nat.lt_or_ge j (n + 1) with hlt | hge
        · exact ih.2.2 j hj (by omega)
        · have : j = n + 1 := by omega
          subst this
          simpa using hn

theorem lastPatLe_none_spec (pat buf : List Nat) :
    ∀ n : Nat, lastPatLe pat buf n = none → ∀ j, j ≤ n → occursAtB pat buf j = false
  | 0, h, j, hj => by
      have : j = 0 := by omega
      subst this
      by_cases h0 : occursAtB pat buf 0
      · simp [lastPatLe, h0] at h
      · simpa using h0
  | n + 1, h, j, hj => by
      by_cases hn : occursAtB pat buf (n + 1)
      · simp [lastPatLe, hn] at h
      · simp only [lastPatLe, hn, Bool.false_eq_true, not_false_iff, ite_false] at h
        rcases Nat.lt_or_ge j (n + 1) with hlt | hge
        · exact lastPatLe_none_spec pat buf n h j (by omega)
        · have : j = n + 1 := by omega
          subst this
          simpa using hn

theorem byteIdxFrom_spec (buf : List Nat) (start t k : Nat)
    (h : byteIdxFrom buf start t = some k) :
    start ≤ k ∧ buf[k]? = some t ∧
      ∀ j, start ≤ j → j < k → buf[j]? ≠ some t := by
  simp only [byteIdxFrom, Option.map_eq_some'] at h
  obtain ⟨m, hm, hk⟩ := h
  subst hk
  have hs := firstIdxSat_spec _ _ _ hm
  have h1 : buf[m + start]? = some t := by
    have := hs.1
    rw [List.drop_drop, head?_drop_idx] at this
    rw [Nat.add_comm]
    simpa using this
  refine ⟨by omega, h1, fun j hj1 hj2 => ?_⟩
  have h2 := hs.2 (j - start) (by omega)
  rw [List.drop_drop, head?_drop_idx] at h2
  have hj : start + (j - start) = j := by omega
  rw [hj] at h2
  simpa using h2

theorem patIdxFrom_spec (pat buf : List Nat) (start k : Nat)
    (h : patIdxFrom pat buf start = some k) :
    start ≤ k ∧ occursAtB pat buf k = true ∧
      ∀ j, start ≤ j → j < k → occursAtB pat buf j = false := by
  simp only [patIdxFrom, Option.map_eq_some'] at h
  obtain ⟨m, hm, hk⟩ := h
  subst hk
  have hs := firstIdxSat_spec _ _ _ hm
  have h1 : occursAtB pat buf (m + start) = true := by
    have := hs.1
    rw [List.drop_drop] at this
    rw [occursAtB, Nat.add_comm]
    simpa using this
  refine ⟨by omega, h1, fun j hj1 hj2 => ?_⟩
  have h2 := hs.2 (j - start) (by omega)
  rw [List.drop_drop] at h2
  have hj : start + (j - start) = j := by omega
  rw [hj] at h2
  simpa [occursAtB] using h2

theorem paddedBR_length (buf : List Nat) (info : RangeInfo)
    (h : (byteRangeText buf info).length ≤ info.byteRangeLength) :
    (paddedBR buf info).length = info.byteRangeLength := by
  simp only [paddedBR, List.length_append, List.length_replicate]
  omega

theorem matchPlaceholderAt_nil : matchPlaceholderAt [] = none := rfl

theorem dictGet_dictSet_self : ∀ (d : Dict) (k : String) (v : PDFObj),
    dictGet (dictSet d k v) k = some v
  | [], k, v => by simp [dictSet, dictGet]
  | (k0, v0) :: rest, k, v => by
      by_cases h : k0 = k
      · simp [dictSet, dictGet, h]
      · simp only [dictSet, h, ite_false]
        simp only [dictGet, h, ite_false]
        exact dictGet_dictSet_self rest k v

theorem jsFindIndexAux_not_mem (r : Nat) :
    ∀ pages : List Nat, r ∉ pages → jsFindIndexAux r pages = none
  | [], _ => rfl
  | p :: ps, h => by
      have hp : ¬p = r := fun he => h (by simp [he])
      simp only [jsFindIndexAux, hp, ite_false, Option.map_eq_none']
      exact jsFindIndexAux_not_mem r ps (fun hm => h (by simp [hm]))

theorem jsFindIndexAux_mem (r : Nat) :
    ∀ pages : List Nat, r ∈ pages → ∃ i, jsFindIndexAux r pages = some i
  | [], h => absurd h (List.not_mem_nil r)
  | p :: ps, h => by
      by_cases hp : p = r
      · exact ⟨0, by simp [jsFindIndexAux, hp]⟩
      · have hm : r ∈ ps := by
          rcases List.mem_cons.mp h with he | hm
          · exact absurd he.symm hp
          · exact hm
        obtain ⟨i, hi⟩ := jsFindIndexAux_mem r ps hm
        exact ⟨i + 1, by simp [jsFindIndexAux, hp, hi]⟩

theorem jsFindIndex_not_mem (pages : List Nat) (r : Nat) (h : r ∉ pages) :
    jsFindIndex pages r = -1 := by
  simp [jsFindIndex, jsFindIndexAux_not_mem r pages h]

theorem jsFindIndex_nonneg (pages : List Nat) (r : Nat) (h : r ∈ pages) :
    0 ≤ jsFindIndex pages r := by
  obtain ⟨i, hi⟩ := jsFindIndexAux_mem r pages h
  simp [jsFindIndex, hi]

theorem locateRanges_ok (buf : List Nat) (info : RangeInfo)
    (h : locateRanges buf = .ok info) :
    findPlaceholder buf = some (info.byteRangePos, info.byteRangeLength) ∧
    contentsKeyAt buf info.byteRangePos = some info.contentsKeyPos ∧
    byteIdxFrom buf (info.contentsKeyPos + 9) 0x3c = some info.contentsStart ∧
    byteIdxFrom buf info.contentsStart 0x3e = some info.contentsEnd := by
  unfold locateRanges at h
  split at h
  · exact absurd h (by simp)
  next brPos brLen hfp =>
    split at h
    · exact absurd h (by simp)
    next k hkey =>
      split at h
      · exact absurd h (by simp)
      next cs hcs =>
        split at h
        · exact absurd h (by simp)
        next ce hce =>
          cases h
          exact ⟨hfp, hkey, hcs, hce⟩

theorem contentsKeyAt_spec (buf : List Nat) (brPos k : Nat)
    (h : contentsKeyAt buf brPos = some k) :
    occursAtB contentsPat buf k = true ∧
    ((k ≤ brPos ∧ ∀ j, k < j → j ≤ brPos → occursAtB contentsPat buf j = false) ∨
     ((∀ j, j ≤ brPos → occursAtB contentsPat buf j = false) ∧ brPos ≤ k ∧
      ∀ j, brPos ≤ j → j < k → occursAtB contentsPat buf j = false)) := by
  unfold contentsKeyAt at h
  split at h
  next k2 hlast =>
    injection h with h2
    subst h2
    have hs := lastPatLe_spec contentsPat buf brPos k2 hlast
    exact ⟨hs.2.1, Or.inl ⟨hs.1, hs.2.2⟩⟩
  next hlast =>
    have hnone := lastPatLe_none_spec contentsPat buf brPos hlast
    have hs := patIdxFrom_spec contentsPat buf brPos k h
    exact ⟨hs.2.1, Or.inr ⟨hnone, hs.1, hs.2.2⟩⟩

theorem signFlow_ok (H : List Nat → List Nat) (der : CMSModel → List Nat)
    (creds : SignerCredentials) (buf : List Nat) (out : SignOutput)
    (h : signFlow H der creds buf = .ok out) :
    locateRanges buf = .ok out.info ∧
    (byteRangeText buf out.info).length ≤ out.info.byteRangeLength ∧
    ((hexEncode (der (buildCMS H creds))).length : Int) ≤ availSpace out.info ∧
    out.bytes = writeAt (writeAt buf out.info.byteRangePos (paddedBR buf out.info))
      (out.info.contentsStart + 1) (paddedHex H der creds out.info) ∧
    out.byteRange = [0, out.info.contentsStart, out.info.contentsEnd + 1,
      buf.length - (out.info.contentsEnd + 1)] ∧
    out.cms = buildCMS H creds ∧
    out.hexLen = (paddedHex H der creds out.info).length := by
  unfold signFlow at h
  split at h
  · exact absurd h (by simp)
  next info hloc =>
    split at h
    · exact absurd h (by simp)
    next hbr =>
      split at h
      · exact absurd h (by simp)
      next hhex =>
        cases h
        refine ⟨hloc, ?_, ?_, rfl, rfl, rfl, rfl⟩
        · show (byteRangeText buf info).length ≤ info.byteRangeLength
          omega
        · show ((hexEncode (der (buildCMS H creds))).length : Int) ≤ availSpace info
          omega

theorem countMatches_zero_no_placeholder (buf : List Nat)
    (h : countPlaceholderMatches buf = 0) : findPlaceholder buf = none := by
  have hall : ∀ j, j < buf.length → (matchPlaceholderAt (buf.drop j)).isSome = false := by
    intro j hj
    have hfil : ((List.range buf.length).filter
        (fun i => (matchPlaceholderAt (buf.drop i)).isSome)) = [] :=
      List.length_eq_zero.mp h
    by_contra hcon
    have hmem : j ∈ (List.range buf.length).filter
        (fun i => (matchPlaceholderAt (buf.drop i)).isSome) :=
      List.mem_filter.mpr ⟨List.mem_range.mpr hj,
        by simp only [Bool.not_eq_false] at hcon; exact hcon⟩
    rw [hfil] at hmem
    exact absurd hmem (List.not_mem_nil j)
  have hfi : firstIdxSat (fun l => (matchPlaceholderAt l).isSome) buf = none :=
    firstIdxSat_eq_none _ buf hall
  simp [findPlaceholder, hfi]

/-- C2 (amended): the sentinel `/ByteRange` placeholder pattern must match
at least once; when it matches nowhere `signPdf` throws the structural
error ("Could not find ByteRange placeholder.") and returns no buffer,
and when it matches anywhere — once or several times — the leftmost match
is the one used (regex `exec` semantics); more than one match is not
rejected. -/
theorem placeholder_match_semantics (buf : List Nat) :
    (countPlaceholderMatches buf = 0 →
      ∀ (H : List Nat → List Nat) (der : CMSModel → List Nat) (creds : SignerCredentials),
        signFlow H der creds buf = .error .placeholderMissing) ∧
    (∀ i n, findPlaceholder buf = some (i, n) →
      (matchPlaceholderAt (buf.drop i)).isSome = true ∧
      ∀ j, j < i → (matchPlaceholderAt (buf.drop j)).isSome = false) := by
  constructor
  · intro h0 H der creds
    have hnone := countMatches_zero_no_placeholder buf h0
    have hloc : locateRanges buf = .error .placeholderMissing := by
      unfold locateRanges
      rw [hnone]
    unfold signFlow
    rw [hloc]
  · intro i n h
    simp only [findPlaceholder, Option.bind_eq_some] at h
    obtain ⟨i0, hi0, hmap⟩ := h
    simp only [Option.map_eq_some'] at hmap
    obtain ⟨rest, hrest, heq⟩ := hmap
    have hii : i0 = i := congrArg Prod.fst heq
    subst hii
    have hs := firstIdxSat_spec _ buf i0 hi0
    exact ⟨hs.1, hs.2⟩

/-- C2 counterexample: a serialized buffer in which the sentinel pattern
matches at two positions is signed without any error — `signPdf` does not
fail on more than one match, contrary to the claim. -/
theorem placeholder_two_matches_still_signs :
    countPlaceholderMatches exBuf2 = 2 ∧ flowSucceeds exH exDer exCreds exBuf2 = true :=
  ⟨by decide, by decide⟩

/-- Witness for C2: concrete instances of both halves of the amended
statement. -/
theorem placeholder_match_witness :
    signFlow exH exDer exCreds [] = .error .placeholderMissing ∧
    (matchPlaceholderAt (exBuf2.drop 17)).isSome = true ∧
    (matchPlaceholderAt (exBuf2.drop 0)).isSome = false :=
  ⟨(placeholder_match_semantics []).1 rfl exH exDer exCreds,
   ((placeholder_match_semantics exBuf2).2 17 47 rfl).1,
   ((placeholder_match_semantics exBuf2).2 17 47 rfl).2 0 (by omega)⟩

/-- C1: on the concrete buffer `exBuf` the pipeline succeeds, yet the
message-digest authenticated attribute embedded in the CMS object is the
digest of the empty content (`p7.content = ""`), not the digest of the two
byte spans named by the output's own ByteRange quadruple `[0, 11, 17, 49]`
— `signPdf` computes the span digest and never feeds it to the CMS
builder, so recomputing the digest over the spans does not reproduce the
embedded attribute. -/
theorem signed_digest_ignores_byte_ranges :
    signFlow exH exDer exCreds exBuf = .ok wOut ∧
    wOut.byteRange = [0, 11, 17, 49] ∧
    wOut.cms.content = [] ∧
    wOut.cms.authAttrMessageDigest = exH [] ∧
    exH (wOut.bytes.take 11 ++ wOut.bytes.drop 17) ≠ wOut.cms.authAttrMessageDigest :=
  ⟨rfl, rfl, rfl, rfl, by decide⟩

/-- C7: when the real ByteRange text is wider than the reserved
placeholder, or the hex-encoded DER signature is longer than the reserved
container interior, `signPdf` throws (capacity errors) and returns no
bytes. -/
theorem capacity_failure_aborts (H : List Nat → List Nat) (der : CMSModel → List Nat)
    (creds : SignerCredentials) (buf : List Nat) (info : RangeInfo)
    (hloc : locateRanges buf = .ok info)
    (hcap : (byteRangeText buf info).length > info.byteRangeLength ∨
      ((hexEncode (der (buildCMS H creds))).length : Int) > availSpace info) :
    signFlow H der creds buf = .error .byteRangeOverflow ∨
    signFlow H der creds buf = .error .signatureOverflow := by
  unfold signFlow
  simp only [hloc]
  by_cases hbr : (byteRangeText buf info).length > info.byteRangeLength
  · left
    rw [if_pos hbr]
  · right
    rw [if_neg hbr]
    have hhex : ((hexEncode (der (buildCMS H creds))).length : Int) > availSpace info := by
      rcases hcap with h | h
      · exact absurd h hbr
      · exact h
    rw [if_pos hhex]

/-- Witness for C7: a two-byte DER signature (four hex characters) does
not fit the three-character container interior of `exBuf`, and signing
aborts. -/
theorem capacity_failure_witness :
    signFlow exH exDer2 exCreds exBuf = .error .byteRangeOverflow ∨
    signFlow exH exDer2 exCreds exBuf = .error .signatureOverflow :=
  capacity_failure_aborts exH exDer2 exCreds exBuf wInfo rfl (Or.inr (by decide))

/-- C5: whenever `signPdf` returns a buffer, the computed ByteRange
quadruple is `[0, s, e + 1, length - (e + 1)]` where `s` is the offset of
the opening hex delimiter `<` (the first `<` at or after the located
`/Contents` key plus 9) and `e` the offset of the closing delimiter `>`
(the first `>` at or after `s`), and the `/Contents` key is located by the
backward search from the `/ByteRange` match (largest occurrence index
`≤` the match position) with a forward fallback (smallest occurrence index
`≥` the match position) when no occurrence precedes it. -/
theorem byteRange_quadruple_correct (H : List Nat → List Nat)
    (der : CMSModel → List Nat) (creds : SignerCredentials)
    (buf : List Nat) (out : SignOutput)
    (h : signFlow H der creds buf = .ok out) :
    out.byteRange = [0, out.info.contentsStart, out.info.contentsEnd + 1,
      buf.length - (out.info.contentsEnd + 1)] ∧
    buf[out.info.contentsStart]? = some 0x3c ∧
    out.info.contentsKeyPos + 9 ≤ out.info.contentsStart ∧
    (∀ j, out.info.contentsKeyPos + 9 ≤ j → j < out.info.contentsStart →
      buf[j]? ≠ some 0x3c) ∧
    buf[out.info.contentsEnd]? = some 0x3e ∧
    out.info.contentsStart ≤ out.info.contentsEnd ∧
    (∀ j, out.info.contentsStart ≤ j → j < out.info.contentsEnd →
      buf[j]? ≠ some 0x3e) ∧
    occursAtB contentsPat buf out.info.contentsKeyPos = true ∧
    ((out.info.contentsKeyPos ≤ out.info.byteRangePos ∧
      ∀ j, out.info.contentsKeyPos < j → j ≤ out.info.byteRangePos →
        occursAtB contentsPat buf j = false) ∨
     ((∀ j, j ≤ out.info.byteRangePos → occursAtB contentsPat buf j = false) ∧
      out.info.byteRangePos ≤ out.info.contentsKeyPos ∧
      ∀ j, out.info.byteRangePos ≤ j → j < out.info.contentsKeyPos →
        occursAtB contentsPat buf j = false)) := by
  obtain ⟨hloc, _, _, _, hbr, _, _⟩ := signFlow_ok H der creds buf out h
  obtain ⟨hfp, hkey, hcs, hce⟩ := locateRanges_ok buf out.info hloc
  have hcsS := byteIdxFrom_spec buf (out.info.contentsKeyPos + 9) 0x3c
    out.info.contentsStart hcs
  have hceS := byteIdxFrom_spec buf out.info.contentsStart 0x3e
    out.info.contentsEnd hce
  have hkeyS := contentsKeyAt_spec buf out.info.byteRangePos
    out.info.contentsKeyPos hkey
  exact ⟨hbr, hcsS.2.1, hcsS.1, hcsS.2.2, hceS.2.1, hceS.1, hceS.2.2,
    hkeyS.1, hkeyS.2⟩

/-- Witness for C5 at the concrete buffer `exBuf`. -/
theorem byteRange_quadruple_witness :
    wOut.byteRange = [0, 11, 17, 49] ∧ exBuf[11]? = some 0x3c ∧
    exBuf[16]? = some 0x3e ∧ exBuf[12]? ≠ some 0x3e := by
  have h := byteRange_quadruple_correct exH exDer exCreds exBuf wOut rfl
  exact ⟨h.1, h.2.1, h.2.2.2.2.1, h.2.2.2.2.2.2.1 12 (by decide) (by decide)⟩

/-- C6: whenever `signPdf` returns a buffer, its length equals the length
of the serialized input buffer, and every byte outside the two patched
spans — the ByteRange text span and the signature hex span — is unchanged. -/
theorem patch_preserves_length_and_frame (H : List Nat → List Nat)
    (der : CMSModel → List Nat) (creds : SignerCredentials)
    (buf : List Nat) (out : SignOutput)
    (h : signFlow H der creds buf = .ok out) :
    out.bytes.length = buf.length ∧
    ∀ i, (i < out.info.byteRangePos ∨
        out.info.byteRangePos + out.info.byteRangeLength ≤ i) →
      (i < out.info.contentsStart + 1 ∨
        out.info.contentsStart + 1 + out.hexLen ≤ i) →
      out.bytes[i]? = buf[i]? := by
  obtain ⟨hloc, hfit, hhex, hbytes, _, _, hlen⟩ := signFlow_ok H der creds buf out h
  have hbrlen : (paddedBR buf out.info).length = out.info.byteRangeLength :=
    paddedBR_length buf out.info hfit
  constructor
  · rw [hbytes, writeAt_length, writeAt_length]
  · intro i h1 h2
    have h2a : i < out.info.contentsStart + 1 ∨
        out.info.contentsStart + 1 + (paddedHex H der creds out.info).length ≤ i := by
      rw [← hlen]
      exact h2
    have h1a : i < out.info.byteRangePos ∨
        out.info.byteRangePos + (paddedBR buf out.info).length ≤ i := by
      rw [hbrlen]
      exact h1
    rw [hbytes, writeAt_getElem_outside _ _ _ i h2a,
      writeAt_getElem_outside _ _ _ i h1a]

/-- Witness for C6 at the concrete buffer `exBuf`: the length is preserved
and two bytes outside both patched spans are untouched. -/
theorem patch_frame_witness :
    wOut.bytes.length = exBuf.length ∧ wOut.bytes[0]? = exBuf[0]? ∧
    wOut.bytes[16]? = exBuf[16]? := by
  have h := patch_preserves_length_and_frame exH exDer exCreds exBuf wOut rfl
  exact ⟨h.1, h.2 0 (by decide) (by decide), h.2 16 (by decide) (by decide)⟩

/-- C3 (amended): the inspector never propagates a decode failure, but the
label depends on how the decode fails: only a thrown decode (malformed
DER) yields the "Signed (Unverified)" label; an absent value dictionary,
absent hex contents, absent certificate list, empty certificate list, or
absent common-name attribute leave the default "Unknown Signer"; and the
inspector always returns exactly one record per signature-type field. -/
theorem inspector_degrades_without_failing :
    signerNameOf .missing = "Unknown Signer" ∧
    signerNameOf .dictNoHexContents = "Unknown Signer" ∧
    signerNameOf (.dictHex .throws) = "Signed (Unverified)" ∧
    signerNameOf (.dictHex (.ok none)) = "Unknown Signer" ∧
    signerNameOf (.dictHex (.ok (some []))) = "Unknown Signer" ∧
    (∀ (c : CertModel) (cs : List CertModel), (∀ a ∈ c.attrs, cnPred a = false) →
      signerNameOf (.dictHex (.ok (some (c :: cs)))) = "Unknown Signer") ∧
    (∀ m : PdfModel, (getExistingSignaturesModel m).length
      = (m.fields.filter (·.isSig)).length) := by
  refine ⟨rfl, rfl, rfl, rfl, rfl, ?_, ?_⟩
  · intro c cs h
    have hfind : c.attrs.find? cnPred = none :=
      List.find?_eq_none.mpr (fun a ha => by simp [h a ha])
    simp [signerNameOf, hfind]
  · intro m
    simp [getExistingSignaturesModel]

/-- Witness for C3: a certificate with a single non-common-name attribute
keeps the default label. -/
theorem inspector_degrades_witness :
    signerNameOf (.dictHex (.ok (some [⟨[⟨none, none, "v"⟩]⟩]))) = "Unknown Signer" :=
  inspector_degrades_without_failing.2.2.2.2.2.1 ⟨[⟨none, none, "v"⟩]⟩ [] (by decide)

/-- C3 counterexample: a signature field whose `/V` value is absent is
reported with the default "Unknown Signer" label, not the fixed
"Signed (Unverified)" label the claim requires for every decode failure. -/
theorem inspector_missing_value_default_label :
    (getExistingSignaturesModel exPdfC3).map (·.signerName) = ["Unknown Signer"] ∧
    (getExistingSignaturesModel exPdfC3).map (·.signerName) ≠ ["Signed (Unverified)"] := by
  exact ⟨by decide, by decide⟩

/-- C4 (amended): for a field whose first widget has no `/P` page
reference the inspector reports page index 0, but when the reference is
present and matches no page by reference identity it reports `findIndex`'s
`-1`, not 0; a resolvable reference yields the (nonnegative) index of the
first matching page. -/
theorem inspector_page_resolution (pageRefs : List Nat) (f : FieldModel)
    (w : WidgetModel) (ws : List WidgetModel) (hw : f.widgets = w :: ws) :
    (w.pageRef = none → (summarizeField pageRefs f).pageIndex = 0) ∧
    (∀ r, w.pageRef = some r → r ∉ pageRefs →
      (summarizeField pageRefs f).pageIndex = -1) ∧
    (∀ r, w.pageRef = some r → r ∈ pageRefs →
      0 ≤ (summarizeField pageRefs f).pageIndex) := by
  refine ⟨?_, ?_, ?_⟩
  · intro hp
    simp [summarizeField, hw, hp]
  · intro r hp hmem
    simp [summarizeField, hw, hp, jsFindIndex_not_mem pageRefs r hmem]
  · intro r hp hmem
    simpa [summarizeField, hw, hp] using jsFindIndex_nonneg pageRefs r hmem

/-- Witness for C4: the unresolvable reference 99 reports -1 against the
page list [5, 6]; the resolvable reference 5 reports a nonnegative index. -/
theorem inspector_page_resolution_witness :
    (summarizeField [5, 6] exFieldA).pageIndex = -1 ∧
    0 ≤ (summarizeField [5, 6] exFieldB).pageIndex :=
  ⟨(inspector_page_resolution [5, 6] exFieldA _ _ rfl).2.1 99 rfl (by decide),
   (inspector_page_resolution [5, 6] exFieldB _ _ rfl).2.2 5 rfl (by decide)⟩

/-- C4 counterexample: on `exPdfC4` (first widget referencing page 99,
page list [5, 6]) the inspector reports page index -1, not 0. -/
theorem inspector_unresolvable_page_minus_one :
    (getExistingSignaturesModel exPdfC4).map (·.pageIndex) = [-1] ∧
    (getExistingSignaturesModel exPdfC4).map (·.pageIndex) ≠ [0] := by
  exact ⟨by decide, by decide⟩

/-- C8 (amended): with lock=true both halves are set — the signature
dictionary carries the `/Reference` array whose single entry is the SigRef
dictionary with `TransformMethod DocMDP`, and the catalog's
`/Perms/DocMDP` references the signature; with lock=false the signature
dictionary carries no `/Reference` and the catalog is returned exactly as
given, so a `/Perms/DocMDP` entry is absent in the output precisely when
the input catalog had none. -/
theorem lock_constructs_amended (dateStr : String) (sigRef : Nat) (catalog : Dict) :
    (dictGet (buildSignatureConstructs true dateStr sigRef catalog).signatureDict
        "Reference" = some (.arr [.dict referenceDictEntries]) ∧
      dictGet referenceDictEntries "TransformMethod" = some (.name "DocMDP") ∧
      dictGet (buildSignatureConstructs true dateStr sigRef catalog).catalog
        "Perms" = some (.dict [("DocMDP", .ref sigRef)]) ∧
      permsDocMDP (buildSignatureConstructs true dateStr sigRef catalog).catalog
        = some (.ref sigRef)) ∧
    (dictGet (buildSignatureConstructs false dateStr sigRef catalog).signatureDict
        "Reference" = none ∧
      (buildSignatureConstructs false dateStr sigRef catalog).catalog = catalog) := by
  have hperms : dictGet (buildSignatureConstructs true dateStr sigRef catalog).catalog
      "Perms" = some (.dict [("DocMDP", .ref sigRef)]) := by
    simp only [buildSignatureConstructs, if_pos]
    exact dictGet_dictSet_self catalog "Perms" _
  refine ⟨⟨rfl, rfl, hperms, ?_⟩, rfl, rfl⟩
  simp [permsDocMDP, hperms, dictGet]

/-- C8 counterexample: when the input catalog already carries
`/Perms/DocMDP` (here the reference 7) and lock=false, the entry is still
present in the output catalog, contrary to the claim that with lock=false
the catalog's `/Perms/DocMDP` entry is never present. -/
theorem lock_false_keeps_existing_perms :
    permsDocMDP (buildSignatureConstructs false "D:20990101" 3 exCatalogPerms).catalog
      = some (.ref 7) ∧
    permsDocMDP (buildSignatureConstructs false "D:20990101" 3 exCatalogPerms).catalog
      ≠ none :=
  ⟨rfl, fun h => Option.noConfusion h⟩

/-- C9: the inspector is a pure function of its input — two invocations on
the same observed document yield identical record sequences. -/
theorem inspector_deterministic (m : PdfModel) (r1 r2 : List ExistingSignature)
    (h1 : getExistingSignaturesModel m = r1) (h2 : getExistingSignaturesModel m = r2) :
    r1 = r2 :=
  h1.symm.trans h2

/-- Witness for C9 on the empty document. -/
theorem inspector_deterministic_witness :
    getExistingSignaturesModel emptyPdfModel = [] :=
  inspector_deterministic emptyPdfModel (getExistingSignaturesModel emptyPdfModel)
    [] rfl rfl

/-- C10: an omitted lock flag resolves to `true` (the TypeScript default
`lockDocument: boolean = true`), so the default construction attaches the
DocMDP reference chain with permission level `P = 1` ("no changes
allowed") and sets the catalog's `/Perms/DocMDP`. -/
theorem default_lock_is_docmdp (dateStr : String) (sigRef : Nat) (catalog : Dict) :
    resolveLockArg none = true ∧
    dictGet (buildSignatureConstructs (resolveLockArg none) dateStr sigRef
        catalog).signatureDict "Reference"
      = some (.arr [.dict referenceDictEntries]) ∧
    dictGet referenceDictEntries "TransformMethod" = some (.name "DocMDP") ∧
    dictGet transformParamsEntries "P" = some (.num 1) ∧
    permsDocMDP (buildSignatureConstructs (resolveLockArg none) dateStr sigRef
        catalog).catalog = some (.ref sigRef) := by
  have hperms : dictGet (buildSignatureConstructs (resolveLockArg none) dateStr
      sigRef catalog).catalog "Perms" = some (.dict [("DocMDP", .ref sigRef)]) := by
    simp only [resolveLockArg, buildSignatureConstructs, if_pos]
    exact dictGet_dictSet_self catalog "Perms" _
  refine ⟨rfl, rfl, rfl, rfl, ?_⟩
  simp [permsDocMDP, hperms, dictGet]
